import Mathlib

/-!
Shallow embedding of the NebulaChat room-lifecycle, messaging and typing
workflow (src/lib/auth.ts, src/lib/messages.ts, the admin module, the typing
module, the add_admin_privileges.sql trigger, and the /api/rooms/[id] HTTP
handler).  The external persistent store is modelled as an explicit record of
table rows plus boolean error-injection flags, one per fallible store call the
code performs; every operation is a pure function from a store to a result and
an updated store, mirroring the sequence of awaited supabase calls in the
source.
-/


namespace ChatApp

/-- Row of the rooms table (part_001 schema: id, password, created_by, name,
description; created_at is irrelevant to the claims and omitted). -/
structure Room where
  id : String
  password : String
  name : Option String
  description : Option String
  createdBy : String
deriving Repr, DecidableEq

/-- Row of the room_participants table (composite primary key
(room_id, user_id); is_admin defaults to false). -/
structure Participant where
  roomId : String
  userId : String
  isAdmin : Bool
deriving Repr, DecidableEq

/-- Row of the messages table. created_at is modelled as a Nat timestamp. -/
structure Msg where
  id : String
  roomId : String
  userId : String
  username : String
  content : String
  createdAt : Nat
deriving Repr, DecidableEq

/-- Row of the user_typing table (part_007). updated_at is a millisecond
timestamp, modelled as an Int so that the now - 10000 window is exact. -/
structure TypingRow where
  roomId : String
  userId : String
  username : String
  isTyping : Bool
  updatedAt : Int
deriving Repr, DecidableEq

/-- The persistent store: the four tables the claims touch, plus one
error-injection flag per fallible store call appearing in the source
(supabase calls return an error object; a set flag makes the corresponding
call report an error without touching the table). -/
structure Store where
  rooms : List Room
  participants : List Participant
  messages : List Msg
  typing : List TypingRow
  failInsertRoom : Bool
  failInsertParticipant : Bool
  failCountParticipants : Bool
  failUpdateRoom : Bool
  failUpdateParticipant : Bool
  failDeleteMessagesByRoom : Bool
  failDeleteParticipantsByRoom : Bool
  failDeleteParticipantRow : Bool
  failDeleteRoom : Bool
deriving Repr, DecidableEq

/-- Lookup of a room by primary key, as in .from(rooms).eq(id, roomId)
followed by .single(). -/
def findRoom (s : Store) (roomId : String) : Option Room :=
  s.rooms.find? (fun r => r.id == roomId)

/-- The joinRoom room lookup: .eq(id, roomId).eq(password, password).single();
zero matching rows gives a PostgREST error, hence none. -/
def findRoomWithPassword (s : Store) (roomId password : String) : Option Room :=
  s.rooms.find? (fun r => r.id == roomId && r.password == password)

/-- Lookup of a participant row by the composite key, as in
.eq(room_id, roomId).eq(user_id, userId).single(). -/
def findParticipant (s : Store) (roomId userId : String) : Option Participant :=
  s.participants.find? (fun p => p.roomId == roomId && p.userId == userId)

/-- The joinRoom participant count: select with count exact filtered by
room_id. -/
def participantCount (s : Store) (roomId : String) : Nat :=
  (s.participants.filter (fun p => p.roomId == roomId)).length

/-- Participant rows of one room (used to state postconditions). -/
def participantsFor (s : Store) (roomId : String) : List Participant :=
  s.participants.filter (fun p => p.roomId == roomId)

/-- Admin participant rows of one room. -/
def adminsFor (s : Store) (roomId : String) : List Participant :=
  s.participants.filter (fun p => p.roomId == roomId && p.isAdmin)

/-- Message rows of one room (used to state postconditions). -/
def messagesFor (s : Store) (roomId : String) : List Msg :=
  s.messages.filter (fun m => m.roomId == roomId)

/-- Number of participant rows carrying one composite key; the primary key of the table keeps this at most 1. -/
def participantKeyCount (s : Store) (roomId userId : String) : Nat :=
  (s.participants.filter (fun p => p.roomId == roomId && p.userId == userId)).length

/-- isRoomAdmin from the admin module (part_006): single row lookup; a missing
row or error yields false; otherwise the is_admin flag. -/
def isRoomAdmin (s : Store) (roomId userId : String) : Bool :=
  match findParticipant s roomId userId with
  | some p => p.isAdmin
  | none => false

/-- joinRoom from src/lib/auth.ts lines 333-410, returning the success boolean
and the updated store.  Steps in source order: room+password lookup (error or
missing row gives false), idempotent membership check (existing row gives true
with no write), exact participant count (a count error gives false), the
10-participant cap, and the insert of a non-admin participant row (an insert
error gives false). -/
def joinRoom (s : Store) (roomId password userId : String) : Bool × Store :=
  if (findRoomWithPassword s roomId password).isNone then (false, s)
  else if (findParticipant s roomId userId).isSome then (true, s)
  else if s.failCountParticipants then (false, s)
  else if 10 ≤ participantCount s roomId then (false, s)
  else if s.failInsertParticipant then (false, s)
  else (true, { s with participants := s.participants ++ [⟨roomId, userId, false⟩] })

/-- Insert of a rooms row together with the AFTER INSERT trigger
set_room_creator_as_admin (src/add_admin_privileges.sql lines 8-23), which
inserts the participant row of the creator with is_admin = true in the same
transaction.  A duplicate primary key or an injected error fails the whole
transaction, leaving the store unchanged. -/
def insertRoomWithTrigger (s : Store) (room : Room) : Option Store :=
  if s.failInsertRoom then none
  else if (findRoom s room.id).isSome then none
  else some { s with
    rooms := s.rooms ++ [room],
    participants := s.participants ++ [⟨room.id, room.createdBy, true⟩] }

/-- Plain insert into room_participants with the schema default
is_admin = false, failing on a duplicate composite key or an injected
error. -/
def insertParticipantDefault (s : Store) (roomId userId : String) : Option Store :=
  if (findParticipant s roomId userId).isSome then none
  else if s.failInsertParticipant then none
  else some { s with participants := s.participants ++ [⟨roomId, userId, false⟩] }

/-- createRoom from src/lib/auth.ts lines 275-331.  The generated room id and
password are passed in (the RPC generate_room_id and Math.random are external
randomness).  The room insert fires the admin trigger; the subsequent explicit
participant insert has its error merely logged, so createRoom reports success
regardless of its outcome. -/
def createRoom (s : Store) (userId roomId password : String) :
    Option (String × String) × Store :=
  match insertRoomWithTrigger s
      { id := roomId, password := password,
        name := some ("Room " ++ roomId.take 4), description := none,
        createdBy := userId } with
  | none => (none, s)
  | some s1 =>
    match insertParticipantDefault s1 roomId userId with
    | none => (some (roomId, password), s1)
    | some s2 => (some (roomId, password), s2)

/-- Settings argument of updateRoomSettings: optional name and description,
none meaning the field is not supplied. -/
structure RoomSettings where
  name : Option String
  description : Option String
deriving Repr, DecidableEq

/-- Effect of .update(settings) on one rooms row: only the supplied fields are
overwritten. -/
def applySettings (room : Room) (settings : RoomSettings) : Room :=
  { room with
    name := match settings.name with
      | some n => some n
      | none => room.name,
    description := match settings.description with
      | some d => some d
      | none => room.description }

/-- updateRoomSettings from the admin module (part_006 lines 26-54): admin
check first (a non-admin caller gets false with no write), then the rooms
update filtered by id (an update error gives false). -/
def updateRoomSettings (s : Store) (roomId userId : String)
    (settings : RoomSettings) : Bool × Store :=
  if !(isRoomAdmin s roomId userId) then (false, s)
  else if s.failUpdateRoom then (false, s)
  else
    let newRooms := s.rooms.map (fun r => if r.id == roomId then applySettings r settings else r)
    (true, { s with rooms := newRooms })

/-- Deletion of all messages rows of one room. -/
def delMsgs (s : Store) (roomId : String) : Store :=
  { s with messages := s.messages.filter (fun m => !(m.roomId == roomId)) }

/-- Deletion of all room_participants rows of one room. -/
def delParts (s : Store) (roomId : String) : Store :=
  { s with participants := s.participants.filter (fun p => !(p.roomId == roomId)) }

/-- Deletion of one rooms row. -/
def delRoomRow (s : Store) (roomId : String) : Store :=
  { s with rooms := s.rooms.filter (fun r => !(r.id == roomId)) }

/-- deleteRoom from the admin module (part_006 lines 57-104): admin check,
then delete messages, then delete participants, then delete the room row, each
step returning false and stopping on an error. -/
def deleteRoom (s : Store) (roomId userId : String) : Bool × Store :=
  if !(isRoomAdmin s roomId userId) then (false, s)
  else if s.failDeleteMessagesByRoom then (false, s)
  else if s.failDeleteParticipantsByRoom then (false, delMsgs s roomId)
  else if s.failDeleteRoom then (false, delParts (delMsgs s roomId) roomId)
  else (true, delRoomRow (delParts (delMsgs s roomId) roomId) roomId)

/-- Status codes of the /api/rooms/[id] HTTP handler. -/
inductive ApiStatus where
  | ok200
  | badRequest400
  | forbidden403
  | serverError500
deriving Repr, DecidableEq

/-- DELETE case of the handler in src/pages/api/rooms/[id].ts lines 83-134:
room id and body userId required, admin check, then it deletes participants
first, then messages, then the room row, each step answering 500 and stopping
on an error. -/
def handlerDelete (s : Store) (roomId userId : Option String) : ApiStatus × Store :=
  match roomId with
  | none => (.badRequest400, s)
  | some rid =>
    match userId with
    | none => (.badRequest400, s)
    | some uid =>
      if !(isRoomAdmin s rid uid) then (.forbidden403, s)
      else if s.failDeleteParticipantsByRoom then (.serverError500, s)
      else if s.failDeleteMessagesByRoom then (.serverError500, delParts s rid)
      else if s.failDeleteRoom then (.serverError500, delMsgs (delParts s rid) rid)
      else (.ok200, delRoomRow (delMsgs (delParts s rid) rid) rid)

/-- removeUserFromRoom from the admin module (part_006 lines 107-156):
self-removal is rejected first, then the admin check on the caller, then the
is_admin flag of the target row (a set flag rejects; a missing row falls through),
then the keyed delete (an error gives false). -/
def removeUserFromRoom (s : Store) (roomId adminId userIdToRemove : String) :
    Bool × Store :=
  if adminId == userIdToRemove then (false, s)
  else if !(isRoomAdmin s roomId adminId) then (false, s)
  else if (match findParticipant s roomId userIdToRemove with
           | some p => p.isAdmin
           | none => false) then (false, s)
  else if s.failDeleteParticipantRow then (false, s)
  else
    let rest := s.participants.filter (fun p => !(p.roomId == roomId && p.userId == userIdToRemove))
    (true, { s with participants := rest })

/-- addRoomAdmin from the admin module (part_006 lines 191-221): admin check
on the caller, then an update setting is_admin true on the target key. -/
def addRoomAdmin (s : Store) (roomId currentAdminId newAdminId : String) :
    Bool × Store :=
  if !(isRoomAdmin s roomId currentAdminId) then (false, s)
  else if s.failUpdateParticipant then (false, s)
  else
    let promoted := s.participants.map (fun p =>
      if p.roomId == roomId && p.userId == newAdminId then { p with isAdmin := true } else p)
    (true, { s with participants := promoted })

/-- Message shape returned to the frontend by the messaging module
(src/lib/messages.ts Message type: id, userId, username, content,
createdAt). -/
structure MessageOut where
  id : String
  userId : String
  username : String
  content : String
  createdAt : Nat
deriving Repr, DecidableEq

/-- Projection of a stored messages row to the frontend shape (the snake_case
to camelCase mapping in getMessages). -/
def toMessageOut (m : Msg) : MessageOut :=
  ⟨m.id, m.userId, m.username, m.content, m.createdAt⟩

/-- getMessages from src/lib/messages.ts lines 117-153 (configured-URL path):
select star from messages ordered by created_at ascending, then the column
mapping.  The function takes no room argument and applies no room filter. -/
def getMessages (s : Store) : List MessageOut :=
  (s.messages.insertionSort (fun a b => a.createdAt ≤ b.createdAt)).map toMessageOut

/-- Input of sendMessage: the fields of Omit Message id createdAt. -/
structure MsgInput where
  userId : String
  username : String
  content : String
deriving Repr, DecidableEq

/-- Outcome of the awaited store insert inside sendMessage: the inserted rows
echoed by .select(), an error result, or a thrown exception. -/
inductive InsertOutcome where
  | ok (rows : List MessageOut)
  | err
  | threw
deriving Repr, DecidableEq

/-- Observable outcome of one sendMessage call: its return value, the
in-memory mockMessages list afterwards, and the messages handed to the mock
subscribers during the call. -/
structure SendResult where
  result : Option MessageOut
  mockMessages : List MessageOut
  delivered : List MessageOut
deriving Repr, DecidableEq

/-- sendMessage from src/lib/messages.ts lines 23-115.  urlSet models whether
NEXT_PUBLIC_SUPABASE_URL is configured; newId is the uuid generated before the
insert, catchId the uuid generated in the catch block, mockId the uuid of the
no-URL branch; now is the Date.now timestamp.  On an insert error or an
exception the function fabricates a message, appends it to mockMessages,
notifies the mock subscribers and returns it; it never returns null there. -/
def sendMessage (urlSet : Bool) (outcome : InsertOutcome)
    (newId catchId mockId : String) (now : Nat)
    (input : MsgInput) (mocks : List MessageOut) : SendResult :=
  if !urlSet then
    let m : MessageOut := ⟨mockId, input.userId, input.username, input.content, now⟩
    ⟨some m, mocks ++ [m], [m]⟩
  else
    match outcome with
    | .ok rows =>
      if rows.isEmpty then
        ⟨some ⟨newId, input.userId, input.username, input.content, now⟩, mocks, []⟩
      else ⟨rows.head?, mocks, []⟩
    | .err =>
      let m : MessageOut := ⟨newId, input.userId, input.username, input.content, now⟩
      ⟨some m, mocks ++ [m], [m]⟩
    | .threw =>
      let m : MessageOut := ⟨catchId, input.userId, input.username, input.content, now⟩
      ⟨some m, mocks ++ [m], [m]⟩

/-- getTypingUsers from the typing module (part_007 lines 40-60): rows of the
room with is_typing true, user_id different from the current user, and
updated_at at least now minus 10000 milliseconds, projected to usernames. -/
def getTypingUsers (s : Store) (now : Int) (roomId currentUserId : String) :
    List String :=
  (s.typing.filter (fun r =>
      r.roomId == roomId && r.isTyping && r.userId != currentUserId &&
      decide (now - 10000 ≤ r.updatedAt))).map (fun r => r.username)

/-- One call of the room-lifecycle workflow, with all externally generated
randomness (room id, password) recorded in the operation. -/
inductive Op where
  | create (userId roomId password : String)
  | join (roomId password userId : String)
  | update (roomId userId : String) (settings : RoomSettings)
  | removeUser (roomId adminId targetId : String)
  | addAdmin (roomId adminId newAdminId : String)
  | delete (roomId userId : String)

/-- State reached after one workflow call (result discarded). -/
def applyOp (s : Store) : Op → Store
  | .create u r p => (createRoom s u r p).2
  | .join r p u => (joinRoom s r p u).2
  | .update r u st => (updateRoomSettings s r u st).2
  | .removeUser r a t => (removeUserFromRoom s r a t).2
  | .addAdmin r a n => (addRoomAdmin s r a n).2
  | .delete r u => (deleteRoom s r u).2

/-- State reached after a sequence of workflow calls. -/
def applyOps (s : Store) (ops : List Op) : Store := ops.foldl applyOp s

/-- State reached after a sequence of joinRoom calls
(roomId, password, userId). -/
def applyJoins (s : Store) (calls : List (String × String × String)) : Store :=
  calls.foldl (fun t c => (joinRoom t c.1 c.2.1 c.2.2).2) s

/-- Distinctness of two participant rows on the composite primary key. -/
def KeyDistinct (p q : Participant) : Prop :=
  p.roomId ≠ q.roomId ∨ p.userId ≠ q.userId

/-- Database well-formedness: rooms have distinct primary keys, participant
rows have pairwise distinct composite keys, and each participant references an
existing room (the primary and foreign keys of the schema). -/
def WF (s : Store) : Prop :=
  (s.rooms.map Room.id).Nodup ∧
  s.participants.Pairwise KeyDistinct ∧
  ∀ p ∈ s.participants, ∃ r ∈ s.rooms, r.id = p.roomId

/-- Every existing room has at least one admin participant row. -/
def AdminInv (s : Store) : Prop :=
  ∀ r ∈ s.rooms, ∃ p ∈ s.participants, p.roomId = r.id ∧ p.isAdmin = true

/-- Store with empty tables and no injected errors. -/
def emptyStore : Store :=
  ⟨[], [], [], [], false, false, false, false, false, false, false, false, false⟩

/-- Room 41231 with secret Ab3xQ9z holding ten participants, u1 being the
creator and admin. -/
def fullRoomStore : Store :=
  { emptyStore with
    rooms := [⟨"41231", "Ab3xQ9z", some "Room 4123", none, "u1"⟩],
    participants :=
      [⟨"41231", "u1", true⟩, ⟨"41231", "u2", false⟩, ⟨"41231", "u3", false⟩,
       ⟨"41231", "u4", false⟩, ⟨"41231", "u5", false⟩, ⟨"41231", "u6", false⟩,
       ⟨"41231", "u7", false⟩, ⟨"41231", "u8", false⟩, ⟨"41231", "u9", false⟩,
       ⟨"41231", "u10", false⟩] }

/-- Room 41231 with nine participants, one seat free. -/
def nineRoomStore : Store :=
  { emptyStore with
    rooms := [⟨"41231", "Ab3xQ9z", some "Room 4123", none, "u1"⟩],
    participants :=
      [⟨"41231", "u1", true⟩, ⟨"41231", "u2", false⟩, ⟨"41231", "u3", false⟩,
       ⟨"41231", "u4", false⟩, ⟨"41231", "u5", false⟩, ⟨"41231", "u6", false⟩,
       ⟨"41231", "u7", false⟩, ⟨"41231", "u8", false⟩, ⟨"41231", "u9", false⟩] }

/-- Room 52000 with an admin, one further member and one message, where the
messages deletion is set to fail. -/
def deleteFailMsgsStore : Store :=
  { emptyStore with
    rooms := [⟨"52000", "pw52000x", some "Room 5200", none, "a1"⟩],
    participants := [⟨"52000", "a1", true⟩, ⟨"52000", "b2", false⟩],
    messages := [⟨"m1", "52000", "b2", "bob", "hello", 5⟩],
    failDeleteMessagesByRoom := true }

/-- Room 52000 with an admin, one further member and one message, all store
calls healthy. -/
def deleteOkStore : Store :=
  { emptyStore with
    rooms := [⟨"52000", "pw52000x", some "Room 5200", none, "a1"⟩],
    participants := [⟨"52000", "a1", true⟩, ⟨"52000", "b2", false⟩],
    messages := [⟨"m1", "52000", "b2", "bob", "hello", 5⟩] }

/-- Room 50001 whose only participant is its admin, where the rooms-row
deletion is set to fail. -/
def deleteFailRoomStore : Store :=
  { emptyStore with
    rooms := [⟨"50001", "pw50001x", some "Room 5000", none, "a1"⟩],
    participants := [⟨"50001", "a1", true⟩],
    failDeleteRoom := true }

/-- Two rooms with one message each, for the history fetch. -/
def twoRoomMessagesStore : Store :=
  { emptyStore with
    rooms := [⟨"11111", "pwaaaaa", none, none, "u1"⟩,
              ⟨"22222", "pwbbbbb", none, none, "u2"⟩],
    messages := [⟨"m1", "11111", "u1", "alice", "hi", 100⟩,
                 ⟨"m2", "22222", "u2", "bob", "yo", 200⟩] }

/-- Typing rows of room r1: alice updated 5 seconds before time 100000, bob 40
seconds before. -/
def typingStore : Store :=
  { emptyStore with
    typing := [⟨"r1", "a", "alice", true, 95000⟩,
               ⟨"r1", "b", "bob", true, 60000⟩] }

/-- Room 60000 with an admin and one member, all store calls healthy. -/
def removeStore : Store :=
  { emptyStore with
    rooms := [⟨"60000", "pw60000x", some "Room 6000", none, "a1"⟩],
    participants := [⟨"60000", "a1", true⟩, ⟨"60000", "b2", false⟩] }

/-- State reached by creating room 77777 for u1 in the empty store. -/
def createdStore : Store := (createRoom emptyStore "u1" "77777" "pw77777").2



theorem findRoomWithPassword_eq_none_of_missing (s : Store) (roomId pw : String)
    (h : ∀ r ∈ s.rooms, r.id ≠ roomId) : findRoomWithPassword s roomId pw = none := by
  refine List.find?_eq_none.mpr ?_
  intro r hr hc
  simp only [Bool.and_eq_true, beq_iff_eq] at hc
  exact h r hr hc.1

theorem findRoomWithPassword_eq_none_of_wrong_pw (s : Store) (roomId pw : String)
    (nd : (s.rooms.map Room.id).Nodup) (r2 : Room) (hr2 : r2 ∈ s.rooms)
    (hid : r2.id = roomId) (hpw : r2.password ≠ pw) :
    findRoomWithPassword s roomId pw = none := by
  refine List.find?_eq_none.mpr ?_
  intro r hr hc
  simp only [Bool.and_eq_true, beq_iff_eq] at hc
  have : r = r2 := List.inj_on_of_nodup_map nd hr hr2 (hc.1.trans hid.symm)
  exact hpw (this ▸ hc.2)

/-- Claim C5: a missing room and a wrong secret produce the same externally
observable joinRoom outcome, the boolean false with no state change, so the
result does not reveal which rooms exist. -/
theorem joinRoom_uniform_failure :
    ∀ (s1 s2 : Store) (roomId pw uid : String),
      ((∀ r ∈ s1.rooms, r.id ≠ roomId) → joinRoom s1 roomId pw uid = (false, s1))
      ∧ ((s2.rooms.map Room.id).Nodup →
         ∀ r2 ∈ s2.rooms, r2.id = roomId → r2.password ≠ pw →
          joinRoom s2 roomId pw uid = (false, s2))
      ∧ ((∀ r ∈ s1.rooms, r.id ≠ roomId) →
         (s2.rooms.map Room.id).Nodup →
         ∀ r2 ∈ s2.rooms, r2.id = roomId → r2.password ≠ pw →
          (joinRoom s1 roomId pw uid).1 = (joinRoom s2 roomId pw uid).1) := by
  intro s1 s2 roomId pw uid
  refine ⟨fun h => ?_, fun nd r2 hr2 hid hpw => ?_, fun h nd r2 hr2 hid hpw => ?_⟩
  · simp [joinRoom, findRoomWithPassword_eq_none_of_missing s1 roomId pw h]
  · simp [joinRoom, findRoomWithPassword_eq_none_of_wrong_pw s2 roomId pw nd r2 hr2 hid hpw]
  · simp [joinRoom, findRoomWithPassword_eq_none_of_missing s1 roomId pw h,
      findRoomWithPassword_eq_none_of_wrong_pw s2 roomId pw nd r2 hr2 hid hpw]

/-- Claim C5 witness: an empty store (room missing) and a store holding room
41231 with a different secret both yield the failure result false. -/
theorem joinRoom_uniform_failure_witness :
    ((∀ r ∈ emptyStore.rooms, r.id ≠ "41231") →
      joinRoom emptyStore "41231" "wrongpw" "u1" = (false, emptyStore))
    ∧ joinRoom emptyStore "41231" "wrongpw" "u1" = (false, emptyStore)
    ∧ joinRoom nineRoomStore "41231" "wrongpw" "u1" = (false, nineRoomStore)
    ∧ (joinRoom emptyStore "41231" "wrongpw" "u1").1 =
        (joinRoom nineRoomStore "41231" "wrongpw" "u1").1 := by
  have T := joinRoom_uniform_failure emptyStore nineRoomStore "41231" "wrongpw" "u1"
  refine ⟨T.1, T.1 (by decide), ?_, ?_⟩
  · exact T.2.1 (by decide) ⟨"41231", "Ab3xQ9z", some "Room 4123", none, "u1"⟩
      (by decide) (by decide) (by decide)
  · exact T.2.2 (by decide) (by decide) ⟨"41231", "Ab3xQ9z", some "Room 4123", none, "u1"⟩
      (by decide) (by decide) (by decide)

/-- Claim C8: getMessages takes no room argument and applies no room filter;
evaluated at a store holding one message in room 11111 and one in room 22222,
the fetch used as the history of room 11111 returns both messages (ordered by
created_at), although room 11111 owns exactly one message. -/
theorem getMessages_ignores_room :
    getMessages twoRoomMessagesStore =
      [⟨"m1", "u1", "alice", "hi", 100⟩, ⟨"m2", "u2", "bob", "yo", 200⟩]
    ∧ messagesFor twoRoomMessagesStore "11111" =
        [⟨"m1", "11111", "u1", "alice", "hi", 100⟩]
    ∧ (twoRoomMessagesStore.messages.filter (fun m => m.roomId == "22222")).length = 1 := by
  decide

/-- Claim C9: getTypingUsers returns exactly the usernames of typing rows of
the room with is_typing true, updated within the last 10 seconds, excluding
the given user; in the concrete scenario with alice updated 5 seconds ago and
bob 40 seconds ago, only alice is returned. -/
theorem getTypingUsers_window :
    (∀ (s : Store) (now : Int) (roomId excl u : String),
      u ∈ getTypingUsers s now roomId excl ↔
        ∃ r ∈ s.typing, r.roomId = roomId ∧ r.isTyping = true ∧ r.userId ≠ excl ∧
          now - r.updatedAt ≤ 10000 ∧ r.username = u)
    ∧ getTypingUsers typingStore 100000 "r1" "me" = ["alice"] := by
  constructor
  · intro s now roomId excl u
    simp only [getTypingUsers, List.mem_map, List.mem_filter]
    constructor
    · rintro ⟨r, ⟨hr, hc⟩, hu⟩
      simp only [Bool.and_eq_true, beq_iff_eq, bne_iff_ne, decide_eq_true_eq] at hc
      exact ⟨r, hr, hc.1.1.1, hc.1.1.2, hc.1.2, by omega, hu⟩
    · rintro ⟨r, hr, h1, h2, h3, h4, h5⟩
      refine ⟨r, ⟨hr, ?_⟩, h5⟩
      simp only [Bool.and_eq_true, beq_iff_eq, bne_iff_ne, decide_eq_true_eq]
      exact ⟨⟨⟨h1, h2⟩, h3⟩, by omega⟩
  · decide

/-- Claim C10: with the backend URL configured, an insert error or a thrown
exception inside sendMessage yields a non-null fabricated message carrying the
input fields, appends it to the in-memory fallback list, and delivers it to
the mock subscribers; the failure is not propagated. -/
theorem sendMessage_swallows_store_failure :
    ∀ (outcome : InsertOutcome) (newId catchId mockId : String) (now : Nat)
      (input : MsgInput) (mocks : List MessageOut),
      outcome = InsertOutcome.err ∨ outcome = InsertOutcome.threw →
      (sendMessage true outcome newId catchId mockId now input mocks).result =
        some ⟨(if outcome = InsertOutcome.err then newId else catchId),
              input.userId, input.username, input.content, now⟩
      ∧ (sendMessage true outcome newId catchId mockId now input mocks).mockMessages =
          mocks ++ [⟨(if outcome = InsertOutcome.err then newId else catchId),
                     input.userId, input.username, input.content, now⟩]
      ∧ (sendMessage true outcome newId catchId mockId now input mocks).delivered =
          [⟨(if outcome = InsertOutcome.err then newId else catchId),
            input.userId, input.username, input.content, now⟩]
      ∧ (sendMessage true outcome newId catchId mockId now input mocks).result ≠ none := by
  rintro outcome newId catchId mockId now input mocks (rfl | rfl) <;>
    simp [sendMessage]

/-- Claim C10 witness: a concrete failing insert is swallowed. -/
theorem sendMessage_swallows_store_failure_witness :
    (InsertOutcome.err = InsertOutcome.err ∨ InsertOutcome.err = InsertOutcome.threw)
    ∧ ((sendMessage true InsertOutcome.err "n1" "c1" "k1" 7 ⟨"u1", "alice", "hi"⟩ []).result =
        some ⟨(if InsertOutcome.err = InsertOutcome.err then "n1" else "c1"),
              "u1", "alice", "hi", 7⟩
      ∧ (sendMessage true InsertOutcome.err "n1" "c1" "k1" 7 ⟨"u1", "alice", "hi"⟩ []).mockMessages =
          [] ++ [⟨(if InsertOutcome.err = InsertOutcome.err then "n1" else "c1"),
                  "u1", "alice", "hi", 7⟩]
      ∧ (sendMessage true InsertOutcome.err "n1" "c1" "k1" 7 ⟨"u1", "alice", "hi"⟩ []).delivered =
          [⟨(if InsertOutcome.err = InsertOutcome.err then "n1" else "c1"),
            "u1", "alice", "hi", 7⟩]
      ∧ (sendMessage true InsertOutcome.err "n1" "c1" "k1" 7 ⟨"u1", "alice", "hi"⟩ []).result ≠ none) :=
  ⟨Or.inl rfl,
   sendMessage_swallows_store_failure InsertOutcome.err "n1" "c1" "k1" 7
     ⟨"u1", "alice", "hi"⟩ [] (Or.inl rfl)⟩



/-- Claim C6: removeUserFromRoom rejects self-removal and removal of an admin
target without deleting anything, and a successful or state-changing call
implies the caller is an admin and the target a non-admin other than the
caller. -/
theorem removeUserFromRoom_guards :
    ∀ (s : Store) (roomId callerId targetId : String),
      (callerId = targetId → removeUserFromRoom s roomId callerId targetId = (false, s))
      ∧ (∀ p, findParticipant s roomId targetId = some p → p.isAdmin = true →
          removeUserFromRoom s roomId callerId targetId = (false, s))
      ∧ (isRoomAdmin s roomId callerId = false →
          removeUserFromRoom s roomId callerId targetId = (false, s))
      ∧ ((removeUserFromRoom s roomId callerId targetId).1 = true ∨
         (removeUserFromRoom s roomId callerId targetId).2 ≠ s →
          isRoomAdmin s roomId callerId = true ∧ callerId ≠ targetId ∧
          (∀ p, findParticipant s roomId targetId = some p → p.isAdmin = false)) := by
  intro s roomId callerId targetId
  unfold removeUserFromRoom
  split_ifs with h1 h2 h3 h4
  · exact ⟨fun _ => rfl, fun p hp hpa => rfl, fun hna => rfl,
      fun hch => by rcases hch with hch | hch
                    · simp at hch
                    · exact (hch rfl).elim⟩
  · exact ⟨fun _ => rfl, fun p hp hpa => rfl, fun hna => rfl,
      fun hch => by rcases hch with hch | hch
                    · simp at hch
                    · exact (hch rfl).elim⟩
  · exact ⟨fun _ => rfl, fun p hp hpa => rfl, fun hna => rfl,
      fun hch => by rcases hch with hch | hch
                    · simp at hch
                    · exact (hch rfl).elim⟩
  · exact ⟨fun _ => rfl, fun p hp hpa => rfl, fun hna => rfl,
      fun hch => by rcases hch with hch | hch
                    · simp at hch
                    · exact (hch rfl).elim⟩
  · have hb : isRoomAdmin s roomId callerId = true := by
      revert h2
      cases isRoomAdmin s roomId callerId <;> simp
    have hne : callerId ≠ targetId := fun he => h1 (beq_iff_eq.mpr he)
    refine ⟨fun he => (hne he).elim, ?_, ?_, ?_⟩
    · intro p hp hpa
      rw [hp] at h3
      exact absurd hpa (by simpa using h3)
    · intro hna
      rw [hb] at hna
      cases hna
    · intro hch
      refine ⟨hb, hne, fun p hp => ?_⟩
      rw [hp] at h3
      simpa using h3

/-- Claim C6 witness: the admin a1 removes the non-admin b2 successfully, and
the guards fire at concrete rejecting inputs. -/
theorem removeUserFromRoom_guards_witness :
    (("a1" : String) = "a1" → removeUserFromRoom removeStore "60000" "a1" "a1" =
      (false, removeStore))
    ∧ removeUserFromRoom removeStore "60000" "a1" "a1" = (false, removeStore)
    ∧ removeUserFromRoom removeStore "60000" "b2" "a1" = (false, removeStore)
    ∧ (removeUserFromRoom removeStore "60000" "a1" "b2").1 = true := by
  have T := removeUserFromRoom_guards removeStore "60000" "a1" "a1"
  have T2 := removeUserFromRoom_guards removeStore "60000" "b2" "a1"
  refine ⟨T.1, T.1 rfl, ?_, by decide⟩
  exact T2.2.1 ⟨"60000", "a1", true⟩ (by decide) (by decide)

/-- Claim C7: updateRoomSettings answers false and mutates nothing when the
caller is not an admin, succeeds only for admins, on success rewrites only the
room with the given id through applySettings, and applySettings overwrites
exactly the supplied fields. -/
theorem updateRoomSettings_admin_frame :
    ∀ (s : Store) (roomId userId : String) (settings : RoomSettings),
      (isRoomAdmin s roomId userId = false →
        updateRoomSettings s roomId userId settings = (false, s))
      ∧ ((updateRoomSettings s roomId userId settings).1 = true →
          isRoomAdmin s roomId userId = true)
      ∧ (isRoomAdmin s roomId userId = true → s.failUpdateRoom = true →
          updateRoomSettings s roomId userId settings = (false, s))
      ∧ (isRoomAdmin s roomId userId = true → s.failUpdateRoom = false →
          (updateRoomSettings s roomId userId settings).1 = true
          ∧ (updateRoomSettings s roomId userId settings).2.rooms =
              s.rooms.map (fun r => if r.id == roomId then applySettings r settings else r)
          ∧ (updateRoomSettings s roomId userId settings).2.participants = s.participants
          ∧ (updateRoomSettings s roomId userId settings).2.messages = s.messages)
      ∧ (∀ room : Room,
          (applySettings room settings).id = room.id
          ∧ (applySettings room settings).password = room.password
          ∧ (applySettings room settings).createdBy = room.createdBy
          ∧ (settings.name = none → (applySettings room settings).name = room.name)
          ∧ (settings.description = none →
              (applySettings room settings).description = room.description)
          ∧ (∀ n, settings.name = some n → (applySettings room settings).name = some n)
          ∧ (∀ d, settings.description = some d →
              (applySettings room settings).description = some d)) := by
  intro s roomId userId settings
  refine ⟨fun hna => by simp [updateRoomSettings, hna], ?_, fun ha hf => ?_,
    fun ha hf => ?_, fun room => ?_⟩
  · intro hs
    by_contra hna
    rw [Bool.not_eq_true] at hna
    simp [updateRoomSettings, hna] at hs
  · simp [updateRoomSettings, ha, hf]
  · simp [updateRoomSettings, ha, hf]
  · refine ⟨rfl, rfl, rfl, ?_, ?_, ?_, ?_⟩
    · intro hn
      simp [applySettings, hn]
    · intro hd
      simp [applySettings, hd]
    · intro n hn
      simp [applySettings, hn]
    · intro d hd
      simp [applySettings, hd]

/-- Claim C7 witness: a non-admin caller is rejected with no state change, and
the admin caller overwrites the supplied name only. -/
theorem updateRoomSettings_admin_frame_witness :
    (isRoomAdmin removeStore "60000" "b2" = false →
      updateRoomSettings removeStore "60000" "b2" ⟨some "X", none⟩ = (false, removeStore))
    ∧ updateRoomSettings removeStore "60000" "b2" ⟨some "X", none⟩ = (false, removeStore)
    ∧ (updateRoomSettings removeStore "60000" "a1" ⟨some "X", none⟩).1 = true
    ∧ (updateRoomSettings removeStore "60000" "a1" ⟨some "X", none⟩).2.participants =
        removeStore.participants := by
  have T := updateRoomSettings_admin_frame removeStore "60000" "b2" ⟨some "X", none⟩
  have T2 := updateRoomSettings_admin_frame removeStore "60000" "a1" ⟨some "X", none⟩
  exact ⟨T.1, T.1 (by decide), (T2.2.2.2.1 (by decide) (by decide)).1,
    (T2.2.2.2.1 (by decide) (by decide)).2.2.1⟩



/-- Claim C1 counterexample: room 41231 already holds 10 participants, yet
joinRoom with the correct secret returns true for u1, who is already a member
(the idempotent-membership check precedes the capacity check), so joinRoom
does not fail whenever the room already has 10 participants. -/
theorem joinRoom_full_rejoin_counterexample :
    participantCount fullRoomStore "41231" = 10
    ∧ (joinRoom fullRoomStore "41231" "Ab3xQ9z" "u1").1 = true := by
  decide

theorem participantCount_join_le (s : Store) (rid pw uid R : String)
    (h : participantCount s R ≤ 10) :
    participantCount (joinRoom s rid pw uid).2 R ≤ 10 := by
  unfold joinRoom
  split_ifs with h1 h2 h3 h4 h5
  · exact h
  · exact h
  · exact h
  · exact h
  · exact h
  · have hlt : participantCount s rid ≤ 9 := by omega
    simp only [participantCount, List.filter_append, List.length_append]
    by_cases hR : rid = R
    · subst hR
      have : (List.filter (fun p => p.roomId == rid) [(⟨rid, uid, false⟩ : Participant)]).length ≤ 1 := by
        simp
      simp only [participantCount] at hlt
      omega
    · have : (List.filter (fun p => p.roomId == R) [(⟨rid, uid, false⟩ : Participant)]).length = 0 := by
        simp [hR]
      simp only [participantCount] at h
      omega

/-- Claim C1 amended: joinRoom returns false whenever the room already has 10
or more participants and the caller is not already a participant, and the
participant count of any room never exceeds 10 across any sequence of
joinRoom calls starting from a state within the cap. -/
theorem joinRoom_capacity :
    (∀ (s : Store) (roomId pw uid : String),
      findParticipant s roomId uid = none →
      10 ≤ participantCount s roomId →
      (joinRoom s roomId pw uid).1 = false)
    ∧ (∀ (s : Store) (roomId : String) (calls : List (String × String × String)),
      participantCount s roomId ≤ 10 →
      participantCount (applyJoins s calls) roomId ≤ 10) := by
  constructor
  · intro s roomId pw uid hnone hfull
    unfold joinRoom
    split_ifs with h1 h2 h3
    · rfl
    · rw [hnone] at h2
      simp at h2
    · rfl
    · rfl
  · intro s roomId calls h
    induction calls generalizing s with
    | nil => simpa [applyJoins] using h
    | cons c rest ih =>
      simp only [applyJoins, List.foldl_cons] at *
      exact ih _ (participantCount_join_le s c.1 c.2.1 c.2.2 roomId h)

/-- Claim C1 witness: with the room full, a non-member u99 is rejected, and
one more join attempt keeps the count at 10. -/
theorem joinRoom_capacity_witness :
    (findParticipant fullRoomStore "41231" "u99" = none
     ∧ 10 ≤ participantCount fullRoomStore "41231"
     ∧ (joinRoom fullRoomStore "41231" "Ab3xQ9z" "u99").1 = false)
    ∧ (participantCount fullRoomStore "41231" ≤ 10
       ∧ participantCount (applyJoins fullRoomStore [("41231", "Ab3xQ9z", "u11")]) "41231" ≤ 10) :=
  ⟨⟨by decide, by decide,
    joinRoom_capacity.1 fullRoomStore "41231" "Ab3xQ9z" "u99" (by decide) (by decide)⟩,
   ⟨by decide,
    joinRoom_capacity.2 fullRoomStore "41231" [("41231", "Ab3xQ9z", "u11")] (by decide)⟩⟩



theorem messagesFor_delMsgs (s : Store) (rid : String) :
    messagesFor (delMsgs s rid) rid = [] := by
  simp only [messagesFor, delMsgs, List.filter_filter]
  apply List.filter_eq_nil_iff.mpr
  intro m hm
  simp

theorem participantsFor_delParts (s : Store) (rid : String) :
    participantsFor (delParts s rid) rid = [] := by
  simp only [participantsFor, delParts, List.filter_filter]
  apply List.filter_eq_nil_iff.mpr
  intro p hp
  simp

theorem messagesFor_delParts (s : Store) (rid rid2 : String) :
    messagesFor (delParts s rid2) rid = messagesFor s rid := rfl

theorem messagesFor_delRoomRow (s : Store) (rid rid2 : String) :
    messagesFor (delRoomRow s rid2) rid = messagesFor s rid := rfl

theorem participantsFor_delMsgs (s : Store) (rid rid2 : String) :
    participantsFor (delMsgs s rid2) rid = participantsFor s rid := rfl

theorem participantsFor_delRoomRow (s : Store) (rid rid2 : String) :
    participantsFor (delRoomRow s rid2) rid = participantsFor s rid := rfl

/-- Claim C2 counterexample: in the HTTP DELETE handler, with the messages
deletion failing, the call reports failure, yet the participant rows of room
52000 are already gone (they are deleted before the messages), while the
message survives; under the claimed order (messages first, aborting on
failure) the participants would have remained. -/
theorem deleteRoom_handler_order_counterexample :
    (handlerDelete deleteFailMsgsStore (some "52000") (some "a1")).1 =
      ApiStatus.serverError500
    ∧ participantsFor deleteFailMsgsStore "52000" ≠ []
    ∧ participantsFor (handlerDelete deleteFailMsgsStore (some "52000") (some "a1")).2
        "52000" = []
    ∧ messagesFor (handlerDelete deleteFailMsgsStore (some "52000") (some "a1")).2
        "52000" ≠ [] := by
  decide

/-- Claim C2 amended: the library deleteRoom deletes messages, then
participants, then the room row, aborting with failure at the first erroring
step; the HTTP DELETE handler deletes participants, then messages, then the
room row, likewise aborting; in both, a successful call leaves no message or
participant row referencing the room. -/
theorem deleteRoom_stepwise :
    ∀ (s : Store) (rid uid : String), isRoomAdmin s rid uid = true →
      ((s.failDeleteMessagesByRoom = true → deleteRoom s rid uid = (false, s))
       ∧ (s.failDeleteMessagesByRoom = false → s.failDeleteParticipantsByRoom = true →
           deleteRoom s rid uid = (false, delMsgs s rid))
       ∧ (s.failDeleteMessagesByRoom = false → s.failDeleteParticipantsByRoom = false →
          s.failDeleteRoom = true →
           deleteRoom s rid uid = (false, delParts (delMsgs s rid) rid))
       ∧ (s.failDeleteMessagesByRoom = false → s.failDeleteParticipantsByRoom = false →
          s.failDeleteRoom = false →
           deleteRoom s rid uid = (true, delRoomRow (delParts (delMsgs s rid) rid) rid))
       ∧ ((deleteRoom s rid uid).1 = true →
           messagesFor (deleteRoom s rid uid).2 rid = []
           ∧ participantsFor (deleteRoom s rid uid).2 rid = []))
      ∧ ((s.failDeleteParticipantsByRoom = true →
           handlerDelete s (some rid) (some uid) = (ApiStatus.serverError500, s))
       ∧ (s.failDeleteParticipantsByRoom = false → s.failDeleteMessagesByRoom = true →
           handlerDelete s (some rid) (some uid) = (ApiStatus.serverError500, delParts s rid))
       ∧ (s.failDeleteParticipantsByRoom = false → s.failDeleteMessagesByRoom = false →
          s.failDeleteRoom = true →
           handlerDelete s (some rid) (some uid) =
             (ApiStatus.serverError500, delMsgs (delParts s rid) rid))
       ∧ (s.failDeleteParticipantsByRoom = false → s.failDeleteMessagesByRoom = false →
          s.failDeleteRoom = false →
           handlerDelete s (some rid) (some uid) =
             (ApiStatus.ok200, delRoomRow (delMsgs (delParts s rid) rid) rid))
       ∧ ((handlerDelete s (some rid) (some uid)).1 = ApiStatus.ok200 →
           messagesFor (handlerDelete s (some rid) (some uid)).2 rid = []
           ∧ participantsFor (handlerDelete s (some rid) (some uid)).2 rid = [])) := by
  intro s rid uid hadmin
  constructor
  · refine ⟨?_, ?_, ?_, ?_, ?_⟩
    · intro hm
      simp [deleteRoom, hadmin, hm]
    · intro hm hp
      simp [deleteRoom, hadmin, hm, hp]
    · intro hm hp hr
      simp [deleteRoom, hadmin, hm, hp, hr]
    · intro hm hp hr
      simp [deleteRoom, hadmin, hm, hp, hr]
    · intro hsucc
      by_cases hm : s.failDeleteMessagesByRoom = true
      · simp [deleteRoom, hadmin, hm] at hsucc
      by_cases hp : s.failDeleteParticipantsByRoom = true
      · simp [deleteRoom, hadmin, hm, hp] at hsucc
      by_cases hr : s.failDeleteRoom = true
      · simp [deleteRoom, hadmin, hm, hp, hr] at hsucc
      constructor
      · simp [deleteRoom, hadmin, hm, hp, hr, messagesFor_delRoomRow,
          messagesFor_delParts, messagesFor_delMsgs]
      · simp [deleteRoom, hadmin, hm, hp, hr, participantsFor_delRoomRow,
          participantsFor_delParts]
  · refine ⟨?_, ?_, ?_, ?_, ?_⟩
    · intro hp
      simp [handlerDelete, hadmin, hp]
    · intro hp hm
      simp [handlerDelete, hadmin, hp, hm]
    · intro hp hm hr
      simp [handlerDelete, hadmin, hp, hm, hr]
    · intro hp hm hr
      simp [handlerDelete, hadmin, hp, hm, hr]
    · intro hsucc
      by_cases hp : s.failDeleteParticipantsByRoom = true
      · simp [handlerDelete, hadmin, hp] at hsucc
      by_cases hm : s.failDeleteMessagesByRoom = true
      · simp [handlerDelete, hadmin, hp, hm] at hsucc
      by_cases hr : s.failDeleteRoom = true
      · simp [handlerDelete, hadmin, hp, hm, hr] at hsucc
      constructor
      · simp [handlerDelete, hadmin, hp, hm, hr, messagesFor_delRoomRow,
          messagesFor_delMsgs]
      · simp [handlerDelete, hadmin, hp, hm, hr, participantsFor_delRoomRow,
          participantsFor_delMsgs, participantsFor_delParts]

/-- Claim C2 witness: with all store calls healthy, the admin a1 deletes room
52000 through both code paths, and no message or participant row of the room
remains. -/
theorem deleteRoom_stepwise_witness :
    isRoomAdmin deleteOkStore "52000" "a1" = true
    ∧ deleteRoom deleteOkStore "52000" "a1" =
        (true, delRoomRow (delParts (delMsgs deleteOkStore "52000") "52000") "52000")
    ∧ messagesFor (deleteRoom deleteOkStore "52000" "a1").2 "52000" = []
    ∧ participantsFor (deleteRoom deleteOkStore "52000" "a1").2 "52000" = []
    ∧ handlerDelete deleteOkStore (some "52000") (some "a1") =
        (ApiStatus.ok200, delRoomRow (delMsgs (delParts deleteOkStore "52000") "52000") "52000") :=
  have T := deleteRoom_stepwise deleteOkStore "52000" "a1" (by decide)
  ⟨by decide,
   T.1.2.2.2.1 (by decide) (by decide) (by decide),
   (T.1.2.2.2.2 (by decide)).1,
   (T.1.2.2.2.2 (by decide)).2,
   T.2.2.2.2.1 (by decide) (by decide) (by decide)⟩



/-- Claim C4: joining a room twice with the same valid credentials succeeds
both times, the second call changes nothing, and exactly one participant row
for the pair remains (assuming the primary key held before, so at most one row
existed). -/
theorem joinRoom_idempotent :
    ∀ (s : Store) (roomId pw uid : String),
      (findRoomWithPassword s roomId pw).isSome = true →
      participantKeyCount s roomId uid ≤ 1 →
      (joinRoom s roomId pw uid).1 = true →
      (joinRoom (joinRoom s roomId pw uid).2 roomId pw uid).1 = true
      ∧ (joinRoom (joinRoom s roomId pw uid).2 roomId pw uid).2 =
          (joinRoom s roomId pw uid).2
      ∧ participantKeyCount (joinRoom s roomId pw uid).2 roomId uid = 1 := by
  intro s roomId pw uid hroom hkey hfirst
  obtain ⟨r, hr⟩ := Option.isSome_iff_exists.mp hroom
  by_cases hmem : (findParticipant s roomId uid).isSome = true
  · obtain ⟨p, hp⟩ := Option.isSome_iff_exists.mp hmem
    have hstate : joinRoom s roomId pw uid = (true, s) := by
      simp [joinRoom, hr, hp]
    have hpf : s.participants.find? (fun q => q.roomId == roomId && q.userId == uid) =
        some p := by
      simpa [findParticipant] using hp
    have hpmem : p ∈ s.participants := List.mem_of_find?_eq_some hpf
    have hpcond := List.find?_some hpf
    have hpos : 0 < participantKeyCount s roomId uid := by
      have hmf : p ∈ s.participants.filter (fun q => q.roomId == roomId && q.userId == uid) :=
        List.mem_filter.mpr ⟨hpmem, hpcond⟩
      simp only [participantKeyCount]
      exact List.length_pos.mpr (List.ne_nil_of_mem hmf)
    rw [hstate]
    refine ⟨by simp [joinRoom, hr, hp], by simp [joinRoom, hr, hp], ?_⟩
    show participantKeyCount s roomId uid = 1
    omega
  · have hnone : findParticipant s roomId uid = none := by
      revert hmem
      cases findParticipant s roomId uid <;> simp
    have hzero : participantKeyCount s roomId uid = 0 := by
      simp only [participantKeyCount, List.length_eq_zero]
      refine List.filter_eq_nil_iff.mpr ?_
      intro q hq
      have hnf : s.participants.find? (fun x => x.roomId == roomId && x.userId == uid) =
          none := by
        simpa [findParticipant] using hnone
      exact List.find?_eq_none.mp hnf q hq
    have hcount : ¬ s.failCountParticipants = true := by
      intro hc
      simp [joinRoom, hr, hnone, hc] at hfirst
    have hcap : ¬ (10 ≤ participantCount s roomId) := by
      intro hc
      simp [joinRoom, hr, hnone, hcount, hc] at hfirst
    have hins : ¬ s.failInsertParticipant = true := by
      intro hc
      simp [joinRoom, hr, hnone, hcount, hcap, hc] at hfirst
    have hstate : joinRoom s roomId pw uid =
        (true, { s with participants := s.participants ++ [⟨roomId, uid, false⟩] }) := by
      simp [joinRoom, hr, hnone, hcount, hcap, hins]
    rw [hstate]
    have hfind2 : (findParticipant
        { s with participants := s.participants ++ [⟨roomId, uid, false⟩] }
        roomId uid).isSome = true := by
      apply List.find?_isSome.mpr
      exact ⟨⟨roomId, uid, false⟩, by simp [findParticipant]⟩
    obtain ⟨p2, hp2⟩ := Option.isSome_iff_exists.mp hfind2
    have hroom2 : findRoomWithPassword
        { s with participants := s.participants ++ [⟨roomId, uid, false⟩] } roomId pw =
        some r := hr
    refine ⟨by simp [joinRoom, hroom2, hp2], by simp [joinRoom, hroom2, hp2], ?_⟩
    simp only [participantKeyCount, List.filter_append, List.length_append]
    simp only [participantKeyCount, List.length_eq_zero] at hzero
    rw [hzero]
    simp

/-- Claim C4 witness: u10 joins room 41231 twice with the correct secret; both
calls succeed, the second changes nothing, and one row for the pair exists. -/
theorem joinRoom_idempotent_witness :
    ((findRoomWithPassword nineRoomStore "41231" "Ab3xQ9z").isSome = true
     ∧ participantKeyCount nineRoomStore "41231" "u10" ≤ 1
     ∧ (joinRoom nineRoomStore "41231" "Ab3xQ9z" "u10").1 = true)
    ∧ ((joinRoom (joinRoom nineRoomStore "41231" "Ab3xQ9z" "u10").2 "41231" "Ab3xQ9z" "u10").1 = true
       ∧ (joinRoom (joinRoom nineRoomStore "41231" "Ab3xQ9z" "u10").2 "41231" "Ab3xQ9z" "u10").2 =
           (joinRoom nineRoomStore "41231" "Ab3xQ9z" "u10").2
       ∧ participantKeyCount (joinRoom nineRoomStore "41231" "Ab3xQ9z" "u10").2 "41231" "u10" = 1) :=
  ⟨⟨by decide, by decide, by decide⟩,
   joinRoom_idempotent nineRoomStore "41231" "Ab3xQ9z" "u10" (by decide) (by decide) (by decide)⟩




theorem mem_key_of_findParticipant_none (s : Store) (rid uid : String)
    (h : findParticipant s rid uid = none) :
    ∀ p ∈ s.participants, ¬(p.roomId = rid ∧ p.userId = uid) := by
  intro p hp hc
  have hnf : s.participants.find? (fun x => x.roomId == rid && x.userId == uid) = none := by
    simpa [findParticipant] using h
  have := List.find?_eq_none.mp hnf p hp
  simp [hc.1, hc.2] at this

theorem keyDistinct_symm : Symmetric KeyDistinct := by
  intro a b hab
  rcases hab with h | h
  · exact Or.inl (Ne.symm h)
  · exact Or.inr (Ne.symm h)

theorem findParticipant_eq_of_key (s : Store) (rid uid : String) (p : Participant)
    (hpw : s.participants.Pairwise KeyDistinct)
    (hp : p ∈ s.participants) (h1 : p.roomId = rid) (h2 : p.userId = uid) :
    findParticipant s rid uid = some p := by
  have hsome : (findParticipant s rid uid).isSome = true := by
    simp only [findParticipant]
    apply List.find?_isSome.mpr
    exact ⟨p, hp, by simp [h1, h2]⟩
  obtain ⟨q, hq⟩ := Option.isSome_iff_exists.mp hsome
  have hqf : s.participants.find? (fun x => x.roomId == rid && x.userId == uid) = some q := by
    simpa [findParticipant] using hq
  have hqmem : q ∈ s.participants := List.mem_of_find?_eq_some hqf
  have hqcond := List.find?_some hqf
  simp only [Bool.and_eq_true, beq_iff_eq] at hqcond
  have heq : q = p := by
    by_contra hne
    rcases hpw.forall keyDistinct_symm hqmem hp hne with h | h
    · exact h (hqcond.1.trans h1.symm)
    · exact h (hqcond.2.trans h2.symm)
  rw [heq] at hq
  exact hq

theorem findRoomWithPassword_room (s : Store) (rid pw : String)
    (h : (findRoomWithPassword s rid pw).isSome = true) :
    ∃ r ∈ s.rooms, r.id = rid := by
  obtain ⟨r, hr⟩ := Option.isSome_iff_exists.mp h
  have hrf : s.rooms.find? (fun x => x.id == rid && x.password == pw) = some r := by
    simpa [findRoomWithPassword] using hr
  have hrc := List.find?_some hrf
  simp only [Bool.and_eq_true, beq_iff_eq] at hrc
  exact ⟨r, List.mem_of_find?_eq_some hrf, hrc.1⟩

theorem insert_nonadmin_inv (s t : Store) (rid uid : String)
    (hwf : WF s) (hai : AdminInv s)
    (hnone : findParticipant s rid uid = none)
    (hroom : ∃ r ∈ s.rooms, r.id = rid)
    (hrooms : t.rooms = s.rooms)
    (hparts : t.participants = s.participants ++ [⟨rid, uid, false⟩]) :
    WF t ∧ AdminInv t := by
  obtain ⟨hnd, hpw, hfk⟩ := hwf
  constructor
  · refine ⟨by rw [hrooms]; exact hnd, ?_, ?_⟩
    · rw [hparts, List.pairwise_append]
      refine ⟨hpw, List.pairwise_singleton _ _, ?_⟩
      intro a ha b hb
      have hb2 : b = ⟨rid, uid, false⟩ := by simpa using hb
      subst hb2
      have hkey := mem_key_of_findParticipant_none s rid uid hnone a ha
      unfold KeyDistinct
      by_cases hra : a.roomId = rid
      · exact Or.inr (fun hu => hkey ⟨hra, hu⟩)
      · exact Or.inl hra
    · intro p hp
      rw [hparts] at hp
      rw [hrooms]
      rcases List.mem_append.mp hp with hold | hnew
      · exact hfk p hold
      · have hp2 : p = ⟨rid, uid, false⟩ := by simpa using hnew
        subst hp2
        exact hroom
  · intro r hr
    rw [hrooms] at hr
    obtain ⟨p, hpm, hpc⟩ := hai r hr
    exact ⟨p, by rw [hparts]; exact List.mem_append_left _ hpm, hpc⟩

theorem joinRoom_inv (s : Store) (rid pw uid : String)
    (hwf : WF s) (hai : AdminInv s) :
    WF (joinRoom s rid pw uid).2 ∧ AdminInv (joinRoom s rid pw uid).2 := by
  unfold joinRoom
  split_ifs with h1 h2 h3 h4 h5
  · exact ⟨hwf, hai⟩
  · exact ⟨hwf, hai⟩
  · exact ⟨hwf, hai⟩
  · exact ⟨hwf, hai⟩
  · exact ⟨hwf, hai⟩
  · have hnone : findParticipant s rid uid = none := by
      revert h2
      cases findParticipant s rid uid <;> simp
    have hsome : (findRoomWithPassword s rid pw).isSome = true := by
      revert h1
      cases findRoomWithPassword s rid pw <;> simp
    exact insert_nonadmin_inv s _ rid uid ⟨hwf.1, hwf.2.1, hwf.2.2⟩ hai hnone
      (findRoomWithPassword_room s rid pw hsome) rfl rfl

theorem insertRoomWithTrigger_some (s : Store) (room : Room) (t : Store)
    (h : insertRoomWithTrigger s room = some t) :
    t.rooms = s.rooms ++ [room]
    ∧ t.participants = s.participants ++ [⟨room.id, room.createdBy, true⟩]
    ∧ t.failDeleteRoom = s.failDeleteRoom
    ∧ findRoom s room.id = none := by
  unfold insertRoomWithTrigger at h
  split_ifs at h with hf hdup
  injection h with h
  subst h
  refine ⟨rfl, rfl, rfl, ?_⟩
  revert hdup
  cases findRoom s room.id <;> simp

theorem insertParticipantDefault_some (s : Store) (rid uid : String) (t : Store)
    (h : insertParticipantDefault s rid uid = some t) :
    t.rooms = s.rooms
    ∧ t.participants = s.participants ++ [⟨rid, uid, false⟩]
    ∧ t.failDeleteRoom = s.failDeleteRoom
    ∧ findParticipant s rid uid = none := by
  unfold insertParticipantDefault at h
  split_ifs at h with hdup hf
  injection h with h
  subst h
  refine ⟨rfl, rfl, rfl, ?_⟩
  revert hdup
  cases findParticipant s rid uid <;> simp

theorem insertRoomWithTrigger_inv (s : Store) (room : Room) (t : Store)
    (hwf : WF s) (hai : AdminInv s)
    (h : insertRoomWithTrigger s room = some t) :
    (WF t ∧ AdminInv t) ∧ ∃ r ∈ t.rooms, r.id = room.id := by
  obtain ⟨hrooms, hparts, hflag, hmiss⟩ := insertRoomWithTrigger_some s room t h
  obtain ⟨hnd, hpw, hfk⟩ := hwf
  have hfresh : ∀ r ∈ s.rooms, r.id ≠ room.id := by
    intro r hr he
    have hnf : s.rooms.find? (fun x => x.id == room.id) = none := by
      simpa [findRoom] using hmiss
    have := List.find?_eq_none.mp hnf r hr
    simp [he] at this
  have hnoref : ∀ p ∈ s.participants, p.roomId ≠ room.id := by
    intro p hp he
    obtain ⟨r, hrm, hre⟩ := hfk p hp
    exact hfresh r hrm (hre.trans he)
  refine ⟨⟨⟨?_, ?_, ?_⟩, ?_⟩, ?_⟩
  · rw [hrooms, List.map_append, List.nodup_append]
    refine ⟨hnd, by simp, ?_⟩
    intro a ha hb
    have hb2 : a = room.id := by simpa using hb
    obtain ⟨r, hrm, hre⟩ := List.mem_map.mp ha
    exact hfresh r hrm (hre.trans hb2)
  · rw [hparts, List.pairwise_append]
    refine ⟨hpw, List.pairwise_singleton _ _, ?_⟩
    intro a ha b hb
    have hb2 : b = ⟨room.id, room.createdBy, true⟩ := by simpa using hb
    subst hb2
    exact Or.inl (hnoref a ha)
  · intro p hp
    rw [hparts] at hp
    rcases List.mem_append.mp hp with hold | hnew
    · obtain ⟨r, hrm, hre⟩ := hfk p hold
      exact ⟨r, by rw [hrooms]; exact List.mem_append_left _ hrm, hre⟩
    · have hp2 : p = ⟨room.id, room.createdBy, true⟩ := by simpa using hnew
      subst hp2
      exact ⟨room, by rw [hrooms]; simp, rfl⟩
  · intro r hr
    rw [hrooms] at hr
    rcases List.mem_append.mp hr with hold | hnew
    · obtain ⟨p, hpm, hpc⟩ := hai r hold
      exact ⟨p, by rw [hparts]; exact List.mem_append_left _ hpm, hpc⟩
    · have hr2 : r = room := by simpa using hnew
      refine ⟨⟨room.id, room.createdBy, true⟩, by rw [hparts]; simp, ?_, rfl⟩
      rw [hr2]
  · exact ⟨room, by rw [hrooms]; simp, rfl⟩

theorem createRoom_inv (s : Store) (uid rid pw : String)
    (hwf : WF s) (hai : AdminInv s) :
    WF (createRoom s uid rid pw).2 ∧ AdminInv (createRoom s uid rid pw).2 := by
  unfold createRoom
  cases htr : insertRoomWithTrigger s
      { id := rid, password := pw, name := some ("Room " ++ rid.take 4),
        description := none, createdBy := uid } with
  | none => exact ⟨hwf, hai⟩
  | some s1 =>
    dsimp only
    obtain ⟨⟨hwf1, hai1⟩, hroom1⟩ := insertRoomWithTrigger_inv s _ s1 hwf hai htr
    cases hpd : insertParticipantDefault s1 rid uid with
    | none => exact ⟨hwf1, hai1⟩
    | some s2 =>
      dsimp only
      obtain ⟨hrooms2, hparts2, hflag2, hnone2⟩ :=
        insertParticipantDefault_some s1 rid uid s2 hpd
      exact insert_nonadmin_inv s1 s2 rid uid hwf1 hai1 hnone2 hroom1 hrooms2 hparts2

theorem updateRoomSettings_inv (s : Store) (rid uid : String) (st : RoomSettings)
    (hwf : WF s) (hai : AdminInv s) :
    WF (updateRoomSettings s rid uid st).2 ∧ AdminInv (updateRoomSettings s rid uid st).2 := by
  unfold updateRoomSettings
  split_ifs with h1 h2
  · exact ⟨hwf, hai⟩
  · exact ⟨hwf, hai⟩
  · dsimp only
    obtain ⟨hnd, hpw, hfk⟩ := hwf
    have hid : ∀ r : Room,
        ((if r.id == rid then applySettings r st else r) : Room).id = r.id := by
      intro r
      split_ifs <;> rfl
    constructor
    · refine ⟨?_, hpw, ?_⟩
      · have hmm : (s.rooms.map (fun r => if r.id == rid then applySettings r st else r)).map
            Room.id = s.rooms.map Room.id := by
          rw [List.map_map]
          exact List.map_congr_left (fun a _ => hid a)
        rw [hmm]
        exact hnd
      · intro p hp
        obtain ⟨r, hrm, hre⟩ := hfk p hp
        refine ⟨(if r.id == rid then applySettings r st else r),
          List.mem_map_of_mem _ hrm, ?_⟩
        rw [hid r]
        exact hre
    · intro r2 hr2
      obtain ⟨r, hrm, hfr⟩ := List.mem_map.mp hr2
      obtain ⟨p, hpm, hpr, hpa⟩ := hai r hrm
      refine ⟨p, hpm, ?_, hpa⟩
      rw [← hfr, hid r]
      exact hpr

theorem removeUserFromRoom_inv (s : Store) (rid caller target : String)
    (hwf : WF s) (hai : AdminInv s) :
    WF (removeUserFromRoom s rid caller target).2
    ∧ AdminInv (removeUserFromRoom s rid caller target).2 := by
  unfold removeUserFromRoom
  split_ifs with h1 h2 h3 h4
  · exact ⟨hwf, hai⟩
  · exact ⟨hwf, hai⟩
  · exact ⟨hwf, hai⟩
  · exact ⟨hwf, hai⟩
  · dsimp only
    obtain ⟨hnd, hpw, hfk⟩ := hwf
    constructor
    · refine ⟨hnd, hpw.sublist (List.filter_sublist _), ?_⟩
      intro p hp
      exact hfk p (List.mem_of_mem_filter hp)
    · intro r hr
      obtain ⟨p, hpm, hpr, hpa⟩ := hai r hr
      refine ⟨p, List.mem_filter.mpr ⟨hpm, ?_⟩, hpr, hpa⟩
      by_contra hc
      have hc2 : (p.roomId == rid && p.userId == target) = true := by
        revert hc
        cases (p.roomId == rid && p.userId == target) <;> simp
      simp only [Bool.and_eq_true, beq_iff_eq] at hc2
      have hfp := findParticipant_eq_of_key s rid target p hpw hpm hc2.1 hc2.2
      rw [hfp] at h3
      exact h3 hpa

theorem addRoomAdmin_inv (s : Store) (rid caller newAdmin : String)
    (hwf : WF s) (hai : AdminInv s) :
    WF (addRoomAdmin s rid caller newAdmin).2
    ∧ AdminInv (addRoomAdmin s rid caller newAdmin).2 := by
  unfold addRoomAdmin
  split_ifs with h1 h2
  · exact ⟨hwf, hai⟩
  · exact ⟨hwf, hai⟩
  · dsimp only
    obtain ⟨hnd, hpw, hfk⟩ := hwf
    have hkeys : ∀ p : Participant,
        ((if p.roomId == rid && p.userId == newAdmin then { p with isAdmin := true }
          else p) : Participant).roomId = p.roomId
        ∧ ((if p.roomId == rid && p.userId == newAdmin then { p with isAdmin := true }
          else p) : Participant).userId = p.userId := by
      intro p
      split_ifs <;> exact ⟨rfl, rfl⟩
    constructor
    · refine ⟨hnd, ?_, ?_⟩
      · refine hpw.map _ ?_
        intro a b hab
        rcases hab with h | h
        · exact Or.inl (by rw [(hkeys a).1, (hkeys b).1]; exact h)
        · exact Or.inr (by rw [(hkeys a).2, (hkeys b).2]; exact h)
      · intro p hp
        obtain ⟨q, hqm, hq⟩ := List.mem_map.mp hp
        obtain ⟨r, hrm, hre⟩ := hfk q hqm
        refine ⟨r, hrm, ?_⟩
        rw [← hq, (hkeys q).1]
        exact hre
    · intro r hr
      obtain ⟨p, hpm, hpr, hpa⟩ := hai r hr
      refine ⟨(if p.roomId == rid && p.userId == newAdmin then { p with isAdmin := true }
        else p), List.mem_map_of_mem _ hpm, ?_, ?_⟩
      · rw [(hkeys p).1]
        exact hpr
      · split_ifs <;> simp [hpa]

theorem deleteRoom_inv (s : Store) (rid uid : String)
    (hwf : WF s) (hai : AdminInv s) (hflag : s.failDeleteRoom = false) :
    WF (deleteRoom s rid uid).2 ∧ AdminInv (deleteRoom s rid uid).2 := by
  unfold deleteRoom
  split_ifs with h1 h2 h3 h4
  · exact ⟨hwf, hai⟩
  · exact ⟨hwf, hai⟩
  · exact ⟨⟨hwf.1, hwf.2.1, hwf.2.2⟩, hai⟩
  · rw [hflag] at h4
    cases h4
  · show WF (delRoomRow (delParts (delMsgs s rid) rid) rid)
      ∧ AdminInv (delRoomRow (delParts (delMsgs s rid) rid) rid)
    dsimp only [delMsgs, delParts, delRoomRow]
    obtain ⟨hnd, hpw, hfk⟩ := hwf
    constructor
    · refine ⟨?_, hpw.sublist (List.filter_sublist _), ?_⟩
      · exact hnd.sublist ((List.filter_sublist _).map _)
      · intro p hp
        dsimp only at hp
        have hpold : p ∈ s.participants := List.mem_of_mem_filter hp
        have hpcond := List.of_mem_filter hp
        obtain ⟨r, hrm, hre⟩ := hfk p hpold
        refine ⟨r, List.mem_filter.mpr ⟨hrm, ?_⟩, hre⟩
        simp only [Bool.not_eq_true', beq_eq_false_iff_ne] at hpcond ⊢
        rw [hre]
        exact hpcond
    · intro r hr
      dsimp only at hr
      have hrold : r ∈ s.rooms := List.mem_of_mem_filter hr
      have hrcond := List.of_mem_filter hr
      obtain ⟨p, hpm, hpr, hpa⟩ := hai r hrold
      refine ⟨p, List.mem_filter.mpr ⟨hpm, ?_⟩, hpr, hpa⟩
      simp only [Bool.not_eq_true', beq_eq_false_iff_ne] at hrcond ⊢
      rw [hpr]
      exact hrcond

theorem applyOp_flag (s : Store) (op : Op) :
    (applyOp s op).failDeleteRoom = s.failDeleteRoom := by
  cases op with
  | create u r p =>
    show ((createRoom s u r p).2).failDeleteRoom = s.failDeleteRoom
    unfold createRoom
    cases htr : insertRoomWithTrigger s
        { id := r, password := p, name := some ("Room " ++ r.take 4),
          description := none, createdBy := u } with
    | none => rfl
    | some s1 =>
      dsimp only
      have hf1 := (insertRoomWithTrigger_some s _ s1 htr).2.2.1
      cases hpd : insertParticipantDefault s1 r u with
      | none => exact hf1
      | some s2 =>
        dsimp only
        exact ((insertParticipantDefault_some s1 r u s2 hpd).2.2.1).trans hf1
  | join r p u =>
    show ((joinRoom s r p u).2).failDeleteRoom = s.failDeleteRoom
    unfold joinRoom
    split_ifs <;> rfl
  | update r u st =>
    show ((updateRoomSettings s r u st).2).failDeleteRoom = s.failDeleteRoom
    unfold updateRoomSettings
    split_ifs <;> rfl
  | removeUser r a t =>
    show ((removeUserFromRoom s r a t).2).failDeleteRoom = s.failDeleteRoom
    unfold removeUserFromRoom
    split_ifs <;> rfl
  | addAdmin r a n =>
    show ((addRoomAdmin s r a n).2).failDeleteRoom = s.failDeleteRoom
    unfold addRoomAdmin
    split_ifs <;> rfl
  | delete r u =>
    show ((deleteRoom s r u).2).failDeleteRoom = s.failDeleteRoom
    unfold deleteRoom
    split_ifs <;> rfl

theorem applyOp_inv (s : Store) (op : Op)
    (hwf : WF s) (hai : AdminInv s) (hflag : s.failDeleteRoom = false) :
    WF (applyOp s op) ∧ AdminInv (applyOp s op) := by
  cases op with
  | create u r p => exact createRoom_inv s u r p hwf hai
  | join r p u => exact joinRoom_inv s r p u hwf hai
  | update r u st => exact updateRoomSettings_inv s r u st hwf hai
  | removeUser r a t => exact removeUserFromRoom_inv s r a t hwf hai
  | addAdmin r a n => exact addRoomAdmin_inv s r a n hwf hai
  | delete r u => exact deleteRoom_inv s r u hwf hai hflag

theorem applyOps_inv (ops : List Op) (s : Store)
    (hwf : WF s) (hai : AdminInv s) (hflag : s.failDeleteRoom = false) :
    WF (applyOps s ops) ∧ AdminInv (applyOps s ops) := by
  induction ops generalizing s with
  | nil => exact ⟨hwf, hai⟩
  | cons op rest ih =>
    have hstep := applyOp_inv s op hwf hai hflag
    have hflag2 : (applyOp s op).failDeleteRoom = false :=
      (applyOp_flag s op).trans hflag
    simpa [applyOps] using ih (applyOp s op) hstep.1 hstep.2 hflag2

/-- Claim C3 counterexample: starting from a well-formed store whose room
50001 has its admin a1 as only participant, a deleteRoom call whose final
rooms-row deletion fails reports failure after the participants were already
deleted; the room still exists and its admin set is empty, so the admin set of
an existing room can become empty. -/
theorem createRoom_admin_counterexample :
    WF deleteFailRoomStore ∧ AdminInv deleteFailRoomStore
    ∧ (deleteRoom deleteFailRoomStore "50001" "a1").1 = false
    ∧ ((deleteRoom deleteFailRoomStore "50001" "a1").2.rooms.map Room.id) = ["50001"]
    ∧ adminsFor (deleteRoom deleteFailRoomStore "50001" "a1").2 "50001" = []
    ∧ participantsFor (deleteRoom deleteFailRoomStore "50001" "a1").2 "50001" = [] := by
  refine ⟨?_, ?_, by decide, by decide, by decide, by decide⟩
  · unfold WF KeyDistinct
    decide
  · unfold AdminInv
    decide

/-- Claim C3 amended: a successful createRoom leaves a room row with the given
id and creator together with an admin participant row for the creator,
inserted atomically by the database trigger; and the admin set of every
existing room stays non-empty across any sequence of workflow operations from
a well-formed state, provided no deleteRoom call fails at its final room-row
deletion step (such a failure deletes the participants but leaves the room). -/
theorem createRoom_admin_atomic :
    (∀ (s : Store) (uid rid pw : String) (res : String × String) (t : Store),
      createRoom s uid rid pw = (some res, t) →
      (∃ r ∈ t.rooms, r.id = rid ∧ r.createdBy = uid)
      ∧ ∃ p ∈ t.participants, p.roomId = rid ∧ p.userId = uid ∧ p.isAdmin = true)
    ∧ (∀ (s : Store) (ops : List Op),
      WF s → AdminInv s → s.failDeleteRoom = false → AdminInv (applyOps s ops)) := by
  constructor
  · intro s uid rid pw res t h
    unfold createRoom at h
    cases htr : insertRoomWithTrigger s
        { id := rid, password := pw, name := some ("Room " ++ rid.take 4),
          description := none, createdBy := uid } with
    | none =>
      rw [htr] at h
      dsimp only at h
      exact absurd (congrArg Prod.fst h) (by simp)
    | some s1 =>
      rw [htr] at h
      dsimp only at h
      obtain ⟨hrooms1, hparts1, hflag1, hmiss1⟩ := insertRoomWithTrigger_some s _ s1 htr
      cases hpd : insertParticipantDefault s1 rid uid with
      | none =>
        rw [hpd] at h
        dsimp only at h
        have ht : s1 = t := congrArg Prod.snd h
        subst ht
        constructor
        · refine ⟨⟨rid, pw, some ("Room " ++ rid.take 4), none, uid⟩, ?_, rfl, rfl⟩
          rw [hrooms1]
          simp
        · exact ⟨⟨rid, uid, true⟩, by rw [hparts1]; simp, rfl, rfl, rfl⟩
      | some s2 =>
        rw [hpd] at h
        dsimp only at h
        have ht : s2 = t := congrArg Prod.snd h
        subst ht
        obtain ⟨hrooms2, hparts2, hflag2, hnone2⟩ :=
          insertParticipantDefault_some s1 rid uid s2 hpd
        constructor
        · refine ⟨⟨rid, pw, some ("Room " ++ rid.take 4), none, uid⟩, ?_, rfl, rfl⟩
          rw [hrooms2, hrooms1]
          simp
        · exact ⟨⟨rid, uid, true⟩, by rw [hparts2, hparts1]; simp, rfl, rfl, rfl⟩
  · intro s ops hwf hai hflag
    exact (applyOps_inv ops s hwf hai hflag).2

/-- Claim C3 witness: creating room 77777 in an empty store yields the room
and its admin row for u1, and the admin invariant holds after the operation
sequence consisting of that creation. -/
theorem createRoom_admin_atomic_witness :
    (createRoom emptyStore "u1" "77777" "pw77777" =
        (some ("77777", "pw77777"), createdStore)
     ∧ ((∃ r ∈ createdStore.rooms, r.id = "77777" ∧ r.createdBy = "u1")
        ∧ ∃ p ∈ createdStore.participants,
            p.roomId = "77777" ∧ p.userId = "u1" ∧ p.isAdmin = true))
    ∧ (WF emptyStore ∧ AdminInv emptyStore ∧ emptyStore.failDeleteRoom = false
       ∧ AdminInv (applyOps emptyStore [Op.create "u1" "77777" "pw77777"])) :=
  ⟨⟨by decide,
    createRoom_admin_atomic.1 emptyStore "u1" "77777" "pw77777"
      ("77777", "pw77777") createdStore (by decide)⟩,
   ⟨by unfold WF KeyDistinct; decide, by unfold AdminInv; decide, rfl,
    createRoom_admin_atomic.2 emptyStore [Op.create "u1" "77777" "pw77777"]
      (by unfold WF KeyDistinct; decide) (by unfold AdminInv; decide) rfl⟩⟩

/-- Claim C9 witness: the membership characterisation and the scenario
instantiated at the concrete typing store. -/
theorem getTypingUsers_window_witness :
    ("alice" ∈ getTypingUsers typingStore 100000 "r1" "me" ↔
      ∃ r ∈ typingStore.typing, r.roomId = "r1" ∧ r.isTyping = true ∧ r.userId ≠ "me" ∧
        (100000 : Int) - r.updatedAt ≤ 10000 ∧ r.username = "alice")
    ∧ getTypingUsers typingStore 100000 "r1" "me" = ["alice"] :=
  ⟨getTypingUsers_window.1 typingStore 100000 "r1" "me" "alice", getTypingUsers_window.2⟩

end ChatApp
